import Mathlib

/-!
Verification development for the gofail failpoint framework.

The repository ships the integration-test harness, a demonstration HTTP
server and the instrumented call sites; the failpoint runtime itself
(term parser, term evaluator, per-failpoint state, registry and HTTP
control plane) is specified in spec.md and exercised byte-for-byte by
`integration/server/server_test.go`.  The definitions below are a shallow
embedding of that runtime, modelled from the specification and checked
against the exact request/response pairs the integration test asserts.
-/

namespace Gofail

/-- Modelled from the spec: the runtime's `Action` type (spec §3) — the
behavior a failpoint injects at a hit: return a value, sleep, panic, or
do nothing (`off`). The runtime source is not in the repository snapshot. -/
inductive Action where
  | ret : Option String → Action
  | sleep : String → Action
  | panicA : Option String → Action
  | off : Action
deriving DecidableEq, Repr

/-- Modelled from the spec: a `Segment` (spec §3) — an action with an
optional positive repetition count. A counted segment is consumed
`count` times before moving on; a count-less segment repeats forever. -/
structure Segment where
  count : Option Nat
  action : Action
deriving DecidableEq, Repr

/-- Modelled from the spec: a `Term` (spec §3) — the ordered, non-empty
sequence of segments a failpoint steps through. -/
structure Term where
  segs : List Segment
deriving DecidableEq, Repr

/-- Numeric value of a digit string (used by the count prefix parser). -/
def digitsVal (ds : List Char) : Nat :=
  ds.foldl (fun a c => a * 10 + (c.toNat - 48)) 0

/-- Split a character list at every `->` occurrence (spec §4.1: the term
spec is a `->`-separated list of segment specifications). -/
def splitArrowAux : List Char → List Char → List (List Char)
  | [], acc => [acc.reverse]
  | '-' :: '>' :: rest, acc => acc.reverse :: splitArrowAux rest []
  | c :: rest, acc => splitArrowAux rest (c :: acc)

/-- Drop an expected literal character sequence from the front, failing
when it does not match. -/
def dropPre : List Char → List Char → Option (List Char)
  | [], rest => some rest
  | p :: ps, c :: cs => if c = p then dropPre ps cs else none
  | _ :: _, [] => none

/-- Recognize `kw(body)` and return `body` (spec §4.1 action forms with
a parenthesized literal). -/
def parenBody (kw : List Char) (cs : List Char) : Option (List Char) :=
  match dropPre (kw ++ ['(']) cs with
  | none => none
  | some rest =>
    if rest.getLast? = some ')' then some rest.dropLast else none

/-- Modelled from the spec: parse one segment body (spec §4.1) — one of
`off`, `return`, `return(<literal>)`, `sleep(<duration>)`, `panic`,
`panic(<string>)`; anything else is a parse error. -/
def parseAction (cs : List Char) : Option Action :=
  if cs = "off".toList then some Action.off
  else if cs = "return".toList then some (Action.ret none)
  else if cs = "panic".toList then some (Action.panicA none)
  else match parenBody "return".toList cs with
  | some body => some (Action.ret (some (String.mk body)))
  | none =>
    match parenBody "sleep".toList cs with
    | some body => some (Action.sleep (String.mk body))
    | none =>
      match parenBody "panic".toList cs with
      | some body => some (Action.panicA (some (String.mk body)))
      | none => none

/-- Modelled from the spec: parse one segment specification (spec §4.1),
an action optionally prefixed with `<positive integer>*`; a zero count
is rejected. -/
def parseSegment (cs : List Char) : Option Segment :=
  let ds := cs.takeWhile Char.isDigit
  let rest := cs.dropWhile Char.isDigit
  match ds, rest with
  | _ :: _, '*' :: actChars =>
    let n := digitsVal ds
    if n = 0 then none
    else (parseAction actChars).map (fun a => ⟨some n, a⟩)
  | _, _ => (parseAction cs).map (fun a => ⟨none, a⟩)

/-- Spec §3 term invariant: a term is non-empty and every non-terminal
segment carries a count (a count-less segment before the last is
rejected, the policy spec §9 adopts). -/
def validSegs (segs : List Segment) : Bool :=
  match segs with
  | [] => false
  | _ => segs.dropLast.all (fun s => s.count.isSome)

/-- Modelled from the spec: the term parser, `parse(spec) -> Term |
ParseError` (spec §4.1); the empty string is always a parse error. -/
def parse (s : String) : Option Term :=
  if s = "" then none
  else
    match (splitArrowAux s.toList []).mapM parseSegment with
    | none => none
    | some segs => if validSegs segs then some ⟨segs⟩ else none

/-- Modelled from the spec: the per-failpoint mutable state (spec §3) —
enabled flag, current term (with the verbatim accepted spec string kept
for the echo property of §6), evaluator position and hit counter. -/
structure Failpoint where
  enabled : Bool
  term : Option Term
  termStr : String
  posIdx : Nat
  posRem : Nat
  hitCount : Nat
deriving DecidableEq, Repr

/-- Modelled from the spec: the state a failpoint has at registration and
after deactivation (spec §3 lifecycle): disabled, no term, counters at 0. -/
def Failpoint.initial : Failpoint :=
  ⟨false, none, "", 0, 0, 0⟩

/-- Modelled from the spec: the registry (spec §3) — the process-wide
name → failpoint mapping, fixed at registration time. -/
abbrev Registry : Type := List (String × Failpoint)

/-- Registry lookup by name. -/
def Registry.find : Registry → String → Option Failpoint
  | [], _ => none
  | (n, fp) :: rest, name =>
    if n = name then some fp else Registry.find rest name

/-- Replace the state of the named failpoint, leaving every other entry
unchanged (names never appear or disappear at runtime, spec §3). -/
def Registry.update : Registry → String → Failpoint → Registry
  | [], _, _ => []
  | (n, fp) :: rest, name, fp' =>
    if n = name then (n, fp') :: rest
    else (n, fp) :: Registry.update rest name fp'

/-- The `remaining_in_segment` value for a freshly installed term: the
first segment's count, or 0 when the first segment is count-less. -/
def initRem (t : Term) : Nat :=
  ((t.segs[0]?).bind Segment.count).getD 0

/-- Modelled from the spec: the term evaluator `advance(term, position) ->
(Action, nextPosition)` (spec §4.2). A counted segment decrements
`remaining`; at 0, move to the next segment when one exists, else stay at
the terminal segment forever; a count-less segment never advances. -/
def Term.advance (t : Term) (idx rem : Nat) : Action × Nat × Nat :=
  match t.segs[idx]? with
  | none => (Action.off, idx, rem)
  | some seg =>
    match seg.count with
    | none => (seg.action, idx, rem)
    | some _ =>
      let r := rem - 1
      if r = 0 ∧ idx + 1 < t.segs.length then
        (seg.action, idx + 1, ((t.segs[idx + 1]?).bind Segment.count).getD 0)
      else
        (seg.action, idx, r)

/-- Outcome of a single registry `set` operation (spec §4.3). -/
inductive SetResult where
  | ok
  | notFound
  | parseError
deriving DecidableEq, Repr

/-- Modelled from the spec: `set(name, termSpec)` (spec §4.3) — on parse
success installs the term, resets position and hit count and enables the
failpoint; on failure leaves the registry untouched. -/
def setFp (r : Registry) (name spec : String) : Registry × SetResult :=
  match r.find name with
  | none => (r, SetResult.notFound)
  | some _ =>
    match parse spec with
    | none => (r, SetResult.parseError)
    | some t =>
      (r.update name ⟨true, some t, spec, 0, initRem t, 0⟩, SetResult.ok)

/-- Modelled from the spec: `setMany` (spec §4.3) — applies `set` for each
pair in order independently; returns the registry after all attempts and
the first error encountered, if any. -/
def setMany : Registry → List (String × String) → Registry × Option SetResult
  | r, [] => (r, none)
  | r, (n, s) :: rest =>
    let p := setFp r n s
    let q := setMany p.1 rest
    (q.1, if p.2 = SetResult.ok then q.2 else some p.2)

/-- Modelled from the spec: `deactivate(name)` (spec §4.3) — disables the
failpoint, clears its term and resets its hit count; `false` when the
name is not registered. -/
def deactivate (r : Registry) (name : String) : Registry × Bool :=
  match r.find name with
  | none => (r, false)
  | some _ => (r.update name Failpoint.initial, true)

/-- Outcome delivered by the injection hook to an instrumented call site. -/
inductive HitResult where
  | action : Action → HitResult
  | notFound
  | disabled
deriving DecidableEq, Repr

/-- Modelled from the spec: `hit(name)` (spec §4.3) — the injection hook's
entry point: looks up the failpoint; when enabled, increments the hit
counter and runs the evaluator to pick the action and advance position. -/
def hit (r : Registry) (name : String) : Registry × HitResult :=
  match r.find name with
  | none => (r, HitResult.notFound)
  | some fp =>
    if fp.enabled then
      match fp.term with
      | none => (r, HitResult.disabled)
      | some t =>
        let s := t.advance fp.posIdx fp.posRem
        (r.update name
          { fp with posIdx := s.2.1, posRem := s.2.2,
                    hitCount := fp.hitCount + 1 },
         HitResult.action s.1)
    else (r, HitResult.disabled)

/-- Modelled from the spec: the injection-hook contract `Evaluate(name) ->
(shouldAct, action)` (spec §4.5): `shouldAct` is false exactly when no
action is to be enacted (disabled, unknown, or the selected action is
`Off`), and hit accounting happens through `hit`. -/
def evaluate (r : Registry) (name : String) : Registry × Bool × Action :=
  let p := hit r name
  match p.2 with
  | HitResult.action a =>
    (p.1, if a = Action.off then (false, a) else (true, a))
  | _ => (p.1, false, Action.off)

/-- Iterate the injection hook `n` times against the same failpoint. -/
def hitN (r : Registry) (name : String) : Nat → Registry
  | 0 => r
  | n + 1 => (hit (hitN r name n) name).1

/-- An HTTP status code and response body as the control plane emits them. -/
structure HttpResponse where
  status : Nat
  body : String
deriving DecidableEq, Repr

/-- The error line shared by the disabled-failpoint responses (spec §6). -/
def disabledMsg : String := "failed to GET: failpoint: failpoint is disabled"

/-- The error line shared by the unknown-failpoint responses (spec §6). -/
def notExistMsg : String := "failed to GET: failpoint: failpoint does not exist"

/-- Modelled from the spec: `GET /<name>` (spec §6) — 200 with the verbatim
term string plus a newline when enabled; 404 with the quirky extra
trailing newline for an unknown or disabled failpoint. -/
def httpGetOne (r : Registry) (name : String) : HttpResponse :=
  match r.find name with
  | none => ⟨404, notExistMsg ++ "\n\n"⟩
  | some fp =>
    if fp.enabled then ⟨200, fp.termStr ++ "\n"⟩
    else ⟨404, disabledMsg ++ "\n\n"⟩

/-- Modelled from the spec: `GET /<name>/count` (spec §6) — 200 with the
decimal hit count when enabled; 404 for an unknown name; 500 (not 404)
with a single trailing newline when disabled. -/
def httpCount (r : Registry) (name : String) : HttpResponse :=
  match r.find name with
  | none => ⟨404, notExistMsg ++ "\n"⟩
  | some fp =>
    if fp.enabled then ⟨200, toString fp.hitCount⟩
    else ⟨500, disabledMsg ++ "\n"⟩

/-- The `failpoint: <reason>` fragment the bulk-set error body carries for
each failure kind (spec §6, PUT `/failpoints` row). -/
def SetResult.reason : SetResult → String
  | SetResult.ok => ""
  | SetResult.notFound => "failpoint: failpoint does not exist"
  | SetResult.parseError => "failpoint: could not parse terms"

/-- Modelled from the spec: `PUT /<name>` (spec §6) — 204 with an empty
body on success, 404 for an unknown name, 400 for a malformed spec. -/
def httpPutOne (r : Registry) (name spec : String) : Registry × HttpResponse :=
  let p := setFp r name spec
  match p.2 with
  | SetResult.ok => (p.1, ⟨204, ""⟩)
  | SetResult.notFound =>
    (p.1, ⟨404, "fail to set failpoint: " ++ SetResult.notFound.reason ++ "\n"⟩)
  | SetResult.parseError =>
    (p.1, ⟨400, "fail to set failpoint: " ++ SetResult.parseError.reason ++ "\n"⟩)

/-- Modelled from the spec: `PUT /failpoints` (spec §6) — applies every
pair in order, answering 204 when all succeeded and otherwise 400 with
the first error, the pairs that individually succeeded staying applied. -/
def httpSetMany (r : Registry) (pairs : List (String × String)) :
    Registry × HttpResponse :=
  let p := setMany r pairs
  match p.2 with
  | none => (p.1, ⟨204, ""⟩)
  | some e => (p.1, ⟨400, "fail to set failpoint: " ++ e.reason ++ "\n"⟩)

/-- Modelled from the spec: `DELETE /<name>` (spec §6) — 204 with an empty
body after deactivating, 404 for an unknown name. -/
def httpDelete (r : Registry) (name : String) : Registry × HttpResponse :=
  let p := deactivate r name
  if p.2 then (p.1, ⟨204, ""⟩)
  else (p.1, ⟨404, notExistMsg ++ "\n"⟩)

/-- The value `listAll` renders for a name (spec §4.3): the verbatim term
string when enabled, the empty string otherwise. -/
def renderValue (r : Registry) (n : String) : String :=
  match r.find n with
  | some fp => if fp.enabled then fp.termStr else ""
  | none => ""

/-- Modelled from the spec: the lines of `GET /` (spec §4.3 `listAll` and
§6) — one `name=term` line per registered failpoint, names sorted
ascending, the value empty for a disabled failpoint and otherwise the
verbatim accepted term string. -/
def listAllLines (r : Registry) : List String :=
  ((r.map Prod.fst).insertionSort (· ≤ ·)).map
    (fun n => n ++ "=" ++ renderValue r n)

/-- Modelled from the spec: `GET /` (spec §6) — 200 with one
newline-terminated line per registered failpoint. -/
def listAll (r : Registry) : HttpResponse :=
  ⟨200, String.join ((listAllLines r).map (fun l => l ++ "\n"))⟩

/-- The per-pair success condition `setMany` checks, read off the initial
registry (spec §4.3): the name resolves and the spec parses. -/
def pairOk (r : Registry) (p : String × String) : Prop :=
  (r.find p.1).isSome ∧ (parse p.2).isSome

instance (r : Registry) (p : String × String) : Decidable (pairOk r p) :=
  inferInstanceAs (Decidable (_ ∧ _))

/-- The error the first failing pair of a bulk set produces, judged
against a fixed registry (legitimate because the registered-name set
never changes, spec §3). -/
def firstFailure (r : Registry) : List (String × String) → Option SetResult
  | [] => none
  | p :: rest =>
    if (r.find p.1).isSome then
      if (parse p.2).isSome then firstFailure r rest
      else some SetResult.parseError
    else some SetResult.notFound

/-- The registry of the integration-test server: the three failpoints
`main.go` declares, each starting disabled (spec §3 lifecycle). -/
def testRegistry : Registry :=
  [("ExampleLabels", Failpoint.initial),
   ("ExampleOneLine", Failpoint.initial),
   ("ExampleString", Failpoint.initial)]

/-! ### Registry lemmas -/

theorem find_mem_keys {r : Registry} {name : String} {fp : Failpoint}
    (h : r.find name = some fp) : name ∈ r.map Prod.fst := by
  induction r with
  | nil => simp [Registry.find] at h
  | cons p rest ih =>
    rw [Registry.find] at h
    by_cases hp : p.1 = name
    · simp [hp]
    · simp only [hp, if_false] at h
      simp [ih h]

theorem update_of_find_none {r : Registry} {name : String} (fp' : Failpoint)
    (h : r.find name = none) : r.update name fp' = r := by
  induction r with
  | nil => rfl
  | cons p rest ih =>
    rw [Registry.find] at h
    rw [Registry.update]
    by_cases hp : p.1 = name
    · simp [hp] at h
    · simp only [hp, if_false] at h ⊢
      rw [ih h]

theorem find_update_self {r : Registry} {name : String} {fp : Failpoint}
    (fp' : Failpoint) (h : r.find name = some fp) :
    (r.update name fp').find name = some fp' := by
  induction r with
  | nil => simp [Registry.find] at h
  | cons p rest ih =>
    rw [Registry.find] at h
    rw [Registry.update]
    by_cases hp : p.1 = name
    · simp [hp, Registry.find]
    · simp only [hp, if_false] at h ⊢
      rw [Registry.find]
      simp only [hp, if_false]
      exact ih h

theorem find_update_ne {r : Registry} {name m : String} (fp' : Failpoint)
    (h : m ≠ name) : (r.update name fp').find m = r.find m := by
  induction r with
  | nil => rfl
  | cons p rest ih =>
    rw [Registry.update]
    by_cases hp : p.1 = name
    · rw [if_pos hp, Registry.find, Registry.find]
      have : ¬ p.1 = m := by rw [hp]; exact fun hc => h hc.symm
      simp [this]
    · rw [if_neg hp, Registry.find, Registry.find]
      by_cases hm : p.1 = m
      · simp [hm]
      · simp [hm, ih]

theorem find_update_isSome (r : Registry) (name m : String) (fp' : Failpoint) :
    ((r.update name fp').find m).isSome = (r.find m).isSome := by
  by_cases hm : m = name
  · subst hm
    cases h : r.find m with
    | none => rw [update_of_find_none fp' h, h]
    | some fp => rw [find_update_self fp' h]; rfl
  · rw [find_update_ne fp' hm]

theorem setFp_find_isSome (r : Registry) (name spec m : String) :
    (((setFp r name spec).1).find m).isSome = (r.find m).isSome := by
  rw [setFp]
  cases h : r.find name with
  | none => rfl
  | some fp =>
    cases hp : parse spec with
    | none => rfl
    | some t => exact find_update_isSome r name m _

theorem setMany_find_isSome (pairs : List (String × String)) (r : Registry)
    (m : String) :
    (((setMany r pairs).1).find m).isSome = (r.find m).isSome := by
  induction pairs generalizing r with
  | nil => rfl
  | cons p rest ih =>
    rw [setMany]
    exact (ih _).trans (setFp_find_isSome r p.1 p.2 m)

theorem setMany_append (r : Registry) (ps qs : List (String × String)) :
    (setMany r (ps ++ qs)).1 = (setMany (setMany r ps).1 qs).1 := by
  induction ps generalizing r with
  | nil => rfl
  | cons p rest ih =>
    rw [List.cons_append, setMany, setMany]
    exact ih _

theorem firstFailure_congr {r₁ r₂ : Registry}
    (h : ∀ m, (r₁.find m).isSome = (r₂.find m).isSome)
    (ps : List (String × String)) : firstFailure r₁ ps = firstFailure r₂ ps := by
  induction ps with
  | nil => rfl
  | cons p rest ih =>
    rw [firstFailure, firstFailure, h p.1, ih]

theorem setMany_err (r : Registry) (ps : List (String × String)) :
    (setMany r ps).2 = firstFailure r ps := by
  induction ps generalizing r with
  | nil => rfl
  | cons p rest ih =>
    rw [setMany, firstFailure]
    cases hf : r.find p.1 with
    | none =>
      have h2 : (setFp r p.1 p.2).2 = SetResult.notFound := by
        rw [setFp, hf]
      simp [h2, hf]
    | some fp =>
      cases hp : parse p.2 with
      | none =>
        have h2 : (setFp r p.1 p.2).2 = SetResult.parseError := by
          rw [setFp, hf, hp]
        simp [h2, hf, hp]
      | some t =>
        have h2 : (setFp r p.1 p.2).2 = SetResult.ok := by
          rw [setFp, hf, hp]
        have hdom : ∀ m, (((setFp r p.1 p.2).1).find m).isSome =
            (r.find m).isSome := fun m => setFp_find_isSome r p.1 p.2 m
        simp [h2, hf, hp, (ih ((setFp r p.1 p.2).1)).trans
          (firstFailure_congr hdom rest)]

theorem firstFailure_none_iff (r : Registry) (ps : List (String × String)) :
    firstFailure r ps = none ↔ ∀ p ∈ ps, pairOk r p := by
  induction ps with
  | nil => simp [firstFailure]
  | cons p rest ih =>
    rw [firstFailure]
    by_cases h1 : (r.find p.1).isSome
    · by_cases h2 : (parse p.2).isSome
      · simp [h1, h2, ih, pairOk]
      · simp [h1, h2, pairOk]
    · simp [h1, pairOk]

/-! ### Operation lemmas -/

theorem setFp_ok {r : Registry} {name S : String} {fp : Failpoint} {t : Term}
    (hf : r.find name = some fp) (hp : parse S = some t) :
    setFp r name S =
      (r.update name ⟨true, some t, S, 0, initRem t, 0⟩, SetResult.ok) := by
  rw [setFp, hf, hp]

theorem hit_enabled {r : Registry} {name : String} {fp : Failpoint} {t : Term}
    (hf : r.find name = some fp) (he : fp.enabled = true)
    (ht : fp.term = some t) :
    hit r name =
      (r.update name
        { fp with posIdx := (t.advance fp.posIdx fp.posRem).2.1,
                  posRem := (t.advance fp.posIdx fp.posRem).2.2,
                  hitCount := fp.hitCount + 1 },
       HitResult.action (t.advance fp.posIdx fp.posRem).1) := by
  rw [hit, hf]
  simp only [he, if_true, ht]

theorem hit_disabled {r : Registry} {name : String} {fp : Failpoint}
    (hf : r.find name = some fp) (he : fp.enabled = false) :
    hit r name = (r, HitResult.disabled) := by
  rw [hit, hf]
  simp [he]

theorem disabled_responses {r : Registry} {name : String} {fp : Failpoint}
    (hf : r.find name = some fp) (hd : fp.enabled = false) :
    httpGetOne r name = ⟨404, disabledMsg ++ "\n\n"⟩ ∧
    httpCount r name = ⟨500, disabledMsg ++ "\n"⟩ := by
  constructor
  · rw [httpGetOne, hf]
    simp [hd]
  · rw [httpCount, hf]
    simp [hd]

theorem setMany_snoc_applies (r : Registry) (ps : List (String × String))
    (name S : String) (t : Term) (hreg : (r.find name).isSome)
    (hp : parse S = some t) :
    (setMany r (ps ++ [(name, S)])).1.find name =
      some ⟨true, some t, S, 0, initRem t, 0⟩ := by
  rw [setMany_append]
  have hreg2 : ((setMany r ps).1.find name).isSome := by
    rw [setMany_find_isSome]
    exact hreg
  obtain ⟨fp2, hf2⟩ := Option.isSome_iff_exists.mp hreg2
  have h1 : (setMany (setMany r ps).1 [(name, S)]).1 =
      (setFp (setMany r ps).1 name S).1 := by
    rw [setMany, setMany]
  rw [h1, setFp_ok hf2 hp]
  exact find_update_self _ hf2

/-! ### Claim theorems -/

/-- C6: for a registered but disabled failpoint, `GET /<name>` responds
404 with the disabled message and an extra trailing newline, while
`GET /<name>/count` responds 500 with the same message and a single
trailing newline — the asymmetry is exact. -/
theorem disabled_get_count_asymmetry (r : Registry) (name : String)
    (fp : Failpoint) (hf : r.find name = some fp) (hd : fp.enabled = false) :
    httpGetOne r name =
      ⟨404, "failed to GET: failpoint: failpoint is disabled\n\n"⟩ ∧
    httpCount r name =
      ⟨500, "failed to GET: failpoint: failpoint is disabled\n"⟩ :=
  disabled_responses hf hd

/-- C6 witness: the responses for the disabled `ExampleLabels` failpoint
of the integration-test registry. -/
theorem disabled_get_count_asymmetry_witness :
    httpGetOne testRegistry "ExampleLabels" =
      ⟨404, "failed to GET: failpoint: failpoint is disabled\n\n"⟩ ∧
    httpCount testRegistry "ExampleLabels" =
      ⟨500, "failed to GET: failpoint: failpoint is disabled\n"⟩ :=
  disabled_get_count_asymmetry testRegistry "ExampleLabels" Failpoint.initial
    (by decide) (by decide)

/-- C7: setting a registered failpoint with the empty spec string always
fails with a parse error, and a set whose spec fails to parse leaves the
whole registry — term, enabled flag, position and hit counter of the
target included — exactly as it was. -/
theorem empty_spec_parse_error_untouched (r : Registry) (name : String)
    (hreg : (r.find name).isSome) :
    parse "" = none ∧
    setFp r name "" = (r, SetResult.parseError) ∧
    ∀ S, parse S = none → setFp r name S = (r, SetResult.parseError) := by
  obtain ⟨fp, hf⟩ := Option.isSome_iff_exists.mp hreg
  have hmain : ∀ S, parse S = none → setFp r name S = (r, SetResult.parseError) := by
    intro S hS
    rw [setFp, hf, hS]
  exact ⟨rfl, hmain "" rfl, hmain⟩

/-- C7 witness: the empty spec against `ExampleString` of the test
registry parses to nothing and leaves the registry untouched. -/
theorem empty_spec_parse_error_untouched_witness :
    parse "" = none ∧
    setFp testRegistry "ExampleString" "" = (testRegistry, SetResult.parseError) ∧
    ∀ S, parse S = none →
      setFp testRegistry "ExampleString" S = (testRegistry, SetResult.parseError) :=
  empty_spec_parse_error_untouched testRegistry "ExampleString" (by decide)

/-- C3: one invocation of the injection hook on an enabled failpoint
increments its hit counter by exactly one, whatever action the evaluator
selects (`Off` included), so the counter never decreases between resets. -/
theorem hook_increments_hitCount_once (r : Registry) (name : String)
    (fp : Failpoint) (t : Term) (hf : r.find name = some fp)
    (he : fp.enabled = true) (ht : fp.term = some t) :
    ∃ fp', ((evaluate r name).1).find name = some fp' ∧
      fp'.hitCount = fp.hitCount + 1 ∧ fp.hitCount ≤ fp'.hitCount := by
  have hh := hit_enabled hf he ht
  have h1 : (evaluate r name).1 = (hit r name).1 := by
    rw [evaluate]
    cases h2 : (hit r name).2 with
    | action a =>
      by_cases ha : a = Action.off <;> simp [h2, ha]
    | notFound => simp [h2]
    | disabled => simp [h2]
  have hx : ∃ fp', ((hit r name).1).find name = some fp' ∧
      fp'.hitCount = fp.hitCount + 1 := by
    rw [hh]
    exact ⟨_, find_update_self _ hf, rfl⟩
  obtain ⟨fp', h2, h3⟩ := hx
  exact ⟨fp', by rw [h1]; exact h2, h3, by omega⟩

/-- C3 witness: hitting `ExampleLabels` enabled with the always-`Off`
term `off` takes its counter from 0 to 1 even though no action fires. -/
theorem hook_increments_hitCount_once_witness :
    ∃ fp', ((evaluate
        (testRegistry.update "ExampleLabels"
          ⟨true, some ⟨[⟨none, Action.off⟩]⟩, "off", 0, 0, 0⟩)
        "ExampleLabels").1).find "ExampleLabels" = some fp' ∧
      fp'.hitCount = 0 + 1 ∧ 0 ≤ fp'.hitCount :=
  hook_increments_hitCount_once _ "ExampleLabels"
    ⟨true, some ⟨[⟨none, Action.off⟩]⟩, "off", 0, 0, 0⟩
    ⟨[⟨none, Action.off⟩]⟩ (by decide) rfl rfl

/-- C10: a set on one failpoint — and a bulk set naming only other
failpoints — leaves every other registered failpoint's whole state
(term, enabled flag, position, hit counter) unchanged. -/
theorem set_frame_other_failpoints (r : Registry) (name other S : String)
    (hne : other ≠ name) :
    (setFp r name S).1.find other = r.find other ∧
    ∀ pairs : List (String × String), (∀ p ∈ pairs, p.1 ≠ other) →
      (setMany r pairs).1.find other = r.find other := by
  have hone : ∀ (r' : Registry) (n s : String), n ≠ other →
      (setFp r' n s).1.find other = r'.find other := by
    intro r' n s hn
    rw [setFp]
    cases hf : r'.find n with
    | none => rfl
    | some fp =>
      cases hp : parse s with
      | none => rfl
      | some t => exact find_update_ne _ (fun hc => hn hc.symm)
  refine ⟨hone r name S (fun hc => hne hc.symm), ?_⟩
  intro pairs
  induction pairs generalizing r with
  | nil => intro _; rfl
  | cons p rest ih =>
    intro h
    rw [setMany]
    rw [ih _ (fun q hq => h q (List.mem_cons_of_mem p hq))]
    exact hone r p.1 p.2 (h p (List.mem_cons_self p rest))

/-- C2: after a successful set of any syntactically valid spec string `S`,
`GET /<name>` echoes exactly `S` plus one newline, and the `listAll`
entry for the name carries the verbatim accepted string `S`. -/
theorem set_get_echo (r : Registry) (name S : String)
    (hreg : (r.find name).isSome) (hp : (parse S).isSome) :
    httpGetOne (setFp r name S).1 name = ⟨200, S ++ "\n"⟩ ∧
    (name ++ "=" ++ S) ∈ listAllLines (setFp r name S).1 := by
  obtain ⟨fp, hf⟩ := Option.isSome_iff_exists.mp hreg
  obtain ⟨t, hpt⟩ := Option.isSome_iff_exists.mp hp
  have hfind : (setFp r name S).1.find name =
      some ⟨true, some t, S, 0, initRem t, 0⟩ := by
    rw [setFp_ok hf hpt]
    exact find_update_self _ hf
  constructor
  · rw [httpGetOne, hfind]
    rfl
  · have hmem2 : name ∈
        (((setFp r name S).1.map Prod.fst).insertionSort (· ≤ ·)) := by
      rw [List.mem_insertionSort]
      exact find_mem_keys hfind
    have hin := List.mem_map_of_mem
      (fun n => n ++ "=" ++ renderValue (setFp r name S).1 n) hmem2
    have hv : renderValue (setFp r name S).1 name = S := by
      rw [renderValue, hfind]
      rfl
    rw [listAllLines]
    simpa [hv] using hin

/-- C2 witness: setting `ExampleString` to `return("fail string")` echoes
the accepted spec verbatim through `GET` and `listAll`. -/
theorem set_get_echo_witness :
    httpGetOne
      (setFp testRegistry "ExampleString" "return(\"fail string\")").1
      "ExampleString" = ⟨200, "return(\"fail string\")" ++ "\n"⟩ ∧
    ("ExampleString" ++ "=" ++ "return(\"fail string\")") ∈
      listAllLines
        (setFp testRegistry "ExampleString" "return(\"fail string\")").1 :=
  set_get_echo testRegistry "ExampleString" "return(\"fail string\")"
    (by decide) (by decide)

/-- C4: a successful set — single or as any pair of a bulk request —
installs the parsed term, resets the position to the start, zeroes the
hit counter and enables the failpoint, so `count` answers `0`
immediately afterwards. -/
theorem set_resets_state (r : Registry) (name S : String) (fp0 : Failpoint)
    (t : Term) (hreg : r.find name = some fp0) (hp : parse S = some t) :
    (setFp r name S).2 = SetResult.ok ∧
    (setFp r name S).1.find name = some ⟨true, some t, S, 0, initRem t, 0⟩ ∧
    httpCount (setFp r name S).1 name = ⟨200, "0"⟩ ∧
    ∀ ps : List (String × String),
      (setMany r (ps ++ [(name, S)])).1.find name =
        some ⟨true, some t, S, 0, initRem t, 0⟩ := by
  have hfind : (setFp r name S).1.find name =
      some ⟨true, some t, S, 0, initRem t, 0⟩ := by
    rw [setFp_ok hreg hp]
    exact find_update_self _ hreg
  refine ⟨by rw [setFp_ok hreg hp], hfind, ?_, ?_⟩
  · rw [httpCount, hfind]
    have h0 : toString (0 : Nat) = "0" := rfl
    simp [h0]
  · intro ps
    exact setMany_snoc_applies r ps name S t (by rw [hreg]; rfl) hp

/-- C4 witness: re-setting an already enabled `ExampleString` that has a
nonzero hit count zeroes the counter again, both via a single put and as
the last pair of a bulk request. -/
theorem set_resets_state_witness :
    (setFp
      (testRegistry.update "ExampleString"
        ⟨true, some ⟨[⟨none, Action.ret (some "\"x\"")⟩]⟩,
          "return(\"x\")", 0, 0, 7⟩)
      "ExampleString" "return(\"y\")").2 = SetResult.ok ∧
    (setFp
      (testRegistry.update "ExampleString"
        ⟨true, some ⟨[⟨none, Action.ret (some "\"x\"")⟩]⟩,
          "return(\"x\")", 0, 0, 7⟩)
      "ExampleString" "return(\"y\")").1.find "ExampleString" =
      some ⟨true, some ⟨[⟨none, Action.ret (some "\"y\"")⟩]⟩,
        "return(\"y\")", 0, initRem ⟨[⟨none, Action.ret (some "\"y\"")⟩]⟩, 0⟩ ∧
    httpCount
      (setFp
        (testRegistry.update "ExampleString"
          ⟨true, some ⟨[⟨none, Action.ret (some "\"x\"")⟩]⟩,
            "return(\"x\")", 0, 0, 7⟩)
        "ExampleString" "return(\"y\")").1 "ExampleString" = ⟨200, "0"⟩ ∧
    ∀ ps : List (String × String),
      (setMany
        (testRegistry.update "ExampleString"
          ⟨true, some ⟨[⟨none, Action.ret (some "\"x\"")⟩]⟩,
            "return(\"x\")", 0, 0, 7⟩)
        (ps ++ [("ExampleString", "return(\"y\")")])).1.find "ExampleString" =
        some ⟨true, some ⟨[⟨none, Action.ret (some "\"y\"")⟩]⟩,
          "return(\"y\")", 0, initRem ⟨[⟨none, Action.ret (some "\"y\"")⟩]⟩, 0⟩ :=
  set_resets_state _ "ExampleString" "return(\"y\")"
    ⟨true, some ⟨[⟨none, Action.ret (some "\"x\"")⟩]⟩, "return(\"x\")", 0, 0, 7⟩
    ⟨[⟨none, Action.ret (some "\"y\"")⟩]⟩ (by decide) (by decide)

/-- C9: deactivating a registered failpoint answers 204 with an empty
body; afterwards the single-`GET` path reports the disabled 404
response, the count path the disabled 500 response, `listAll` shows an
empty value for the name, and the injection hook tells the instrumented
site not to act. -/
theorem deactivate_disables_everywhere (r : Registry) (name : String)
    (fp : Failpoint) (hf : r.find name = some fp) :
    (httpDelete r name).2 = ⟨204, ""⟩ ∧
    httpGetOne (httpDelete r name).1 name =
      ⟨404, "failed to GET: failpoint: failpoint is disabled\n\n"⟩ ∧
    httpCount (httpDelete r name).1 name =
      ⟨500, "failed to GET: failpoint: failpoint is disabled\n"⟩ ∧
    (name ++ "=") ∈ listAllLines (httpDelete r name).1 ∧
    evaluate (httpDelete r name).1 name =
      ((httpDelete r name).1, false, Action.off) := by
  have hd : deactivate r name = (r.update name Failpoint.initial, true) := by
    rw [deactivate, hf]
  have hr1 : (httpDelete r name).1 = r.update name Failpoint.initial := by
    rw [httpDelete, hd]
    rfl
  have hfind1 : (httpDelete r name).1.find name = some Failpoint.initial := by
    rw [hr1]
    exact find_update_self _ hf
  obtain ⟨hget, hcount⟩ := disabled_responses hfind1 rfl
  refine ⟨by rw [httpDelete, hd]; rfl, hget, hcount, ?_, ?_⟩
  · have hmem2 : name ∈
        (((httpDelete r name).1.map Prod.fst).insertionSort (· ≤ ·)) := by
      rw [List.mem_insertionSort]
      exact find_mem_keys hfind1
    have hin := List.mem_map_of_mem
      (fun n => n ++ "=" ++ renderValue (httpDelete r name).1 n) hmem2
    have hv : renderValue (httpDelete r name).1 name = "" := by
      rw [renderValue, hfind1]
      rfl
    rw [listAllLines]
    simpa [hv] using hin
  · have hh := hit_disabled hfind1 rfl
    rw [evaluate, hh]

/-- C9 witness: deactivating `ExampleString` after it was enabled with a
term and had been hit 3 times. -/
theorem deactivate_disables_everywhere_witness :
    (httpDelete
      (testRegistry.update "ExampleString"
        ⟨true, some ⟨[⟨none, Action.ret (some "\"x\"")⟩]⟩,
          "return(\"x\")", 0, 0, 3⟩)
      "ExampleString").2 = ⟨204, ""⟩ ∧
    httpGetOne
      (httpDelete
        (testRegistry.update "ExampleString"
          ⟨true, some ⟨[⟨none, Action.ret (some "\"x\"")⟩]⟩,
            "return(\"x\")", 0, 0, 3⟩)
        "ExampleString").1 "ExampleString" =
      ⟨404, "failed to GET: failpoint: failpoint is disabled\n\n"⟩ ∧
    httpCount
      (httpDelete
        (testRegistry.update "ExampleString"
          ⟨true, some ⟨[⟨none, Action.ret (some "\"x\"")⟩]⟩,
            "return(\"x\")", 0, 0, 3⟩)
        "ExampleString").1 "ExampleString" =
      ⟨500, "failed to GET: failpoint: failpoint is disabled\n"⟩ ∧
    ("ExampleString" ++ "=") ∈ listAllLines
      (httpDelete
        (testRegistry.update "ExampleString"
          ⟨true, some ⟨[⟨none, Action.ret (some "\"x\"")⟩]⟩,
            "return(\"x\")", 0, 0, 3⟩)
        "ExampleString").1 ∧
    evaluate
      (httpDelete
        (testRegistry.update "ExampleString"
          ⟨true, some ⟨[⟨none, Action.ret (some "\"x\"")⟩]⟩,
            "return(\"x\")", 0, 0, 3⟩)
        "ExampleString").1 "ExampleString" =
      ((httpDelete
        (testRegistry.update "ExampleString"
          ⟨true, some ⟨[⟨none, Action.ret (some "\"x\"")⟩]⟩,
            "return(\"x\")", 0, 0, 3⟩)
        "ExampleString").1, false, Action.off) :=
  deactivate_disables_everywhere _ "ExampleString"
    ⟨true, some ⟨[⟨none, Action.ret (some "\"x\"")⟩]⟩, "return(\"x\")", 0, 0, 3⟩
    (by decide)

/-- C8: `listAll` produces one `name=term` line per registered failpoint,
the names sorted ascending, and renders the empty string as the value of
every disabled failpoint. -/
theorem listAll_ordered_per_name (r : Registry) :
    (listAllLines r).length = r.length ∧
    (∃ names : List String, names.Perm (r.map Prod.fst) ∧
      List.Sorted (fun a b => a ≤ b) names ∧
      listAllLines r = names.map (fun n => n ++ "=" ++ renderValue r n)) ∧
    (∀ n fp, r.find n = some fp → fp.enabled = false →
      (n ++ "=") ∈ listAllLines r) := by
  refine ⟨?_, ⟨(r.map Prod.fst).insertionSort (· ≤ ·),
    List.perm_insertionSort _ _, List.sorted_insertionSort _ _, rfl⟩, ?_⟩
  · rw [listAllLines, List.length_map,
      (List.perm_insertionSort _ _).length_eq, List.length_map]
  · intro n fp hfind hd
    have hmem2 : n ∈ ((r.map Prod.fst).insertionSort (· ≤ ·)) := by
      rw [List.mem_insertionSort]
      exact find_mem_keys hfind
    have hin := List.mem_map_of_mem
      (fun m => m ++ "=" ++ renderValue r m) hmem2
    have hv : renderValue r n = "" := by
      rw [renderValue, hfind]
      simp [hd]
    rw [listAllLines]
    simpa [hv] using hin

/-- C8 witness: the shape of `listAll` on the integration-test registry,
`ExampleString` enabled and the two others disabled. -/
theorem listAll_ordered_per_name_witness :
    (listAllLines
      (testRegistry.update "ExampleString"
        ⟨true, some ⟨[⟨none, Action.ret (some "\"x\"")⟩]⟩,
          "return(\"x\")", 0, 0, 0⟩)).length =
      (testRegistry.update "ExampleString"
        ⟨true, some ⟨[⟨none, Action.ret (some "\"x\"")⟩]⟩,
          "return(\"x\")", 0, 0, 0⟩).length ∧
    (∃ names : List String,
      names.Perm ((testRegistry.update "ExampleString"
        ⟨true, some ⟨[⟨none, Action.ret (some "\"x\"")⟩]⟩,
          "return(\"x\")", 0, 0, 0⟩).map Prod.fst) ∧
      List.Sorted (fun a b => a ≤ b) names ∧
      listAllLines
        (testRegistry.update "ExampleString"
          ⟨true, some ⟨[⟨none, Action.ret (some "\"x\"")⟩]⟩,
            "return(\"x\")", 0, 0, 0⟩) =
        names.map (fun n => n ++ "=" ++
          renderValue
            (testRegistry.update "ExampleString"
              ⟨true, some ⟨[⟨none, Action.ret (some "\"x\"")⟩]⟩,
                "return(\"x\")", 0, 0, 0⟩) n)) ∧
    (∀ n fp,
      (testRegistry.update "ExampleString"
        ⟨true, some ⟨[⟨none, Action.ret (some "\"x\"")⟩]⟩,
          "return(\"x\")", 0, 0, 0⟩).find n = some fp →
      fp.enabled = false →
      (n ++ "=") ∈ listAllLines
        (testRegistry.update "ExampleString"
          ⟨true, some ⟨[⟨none, Action.ret (some "\"x\"")⟩]⟩,
            "return(\"x\")", 0, 0, 0⟩)) :=
  listAll_ordered_per_name _

/-- C5: a bulk set applies every resolvable, parseable pair in request
order even when another pair fails; it answers 204 exactly when every
pair succeeded, and otherwise 400 carrying the first error encountered,
with the pairs that individually succeeded still applied. -/
theorem setMany_first_error_applies_all (r : Registry)
    (pairs : List (String × String)) :
    (setMany r pairs).1 =
      pairs.foldl (fun acc p => (setFp acc p.1 p.2).1) r ∧
    (setMany r pairs).2 = firstFailure r pairs ∧
    (firstFailure r pairs = none ↔ ∀ p ∈ pairs, pairOk r p) ∧
    ((httpSetMany r pairs).2 = ⟨204, ""⟩ ↔ firstFailure r pairs = none) ∧
    (∀ e, firstFailure r pairs = some e →
      (httpSetMany r pairs).2 =
        ⟨400, "fail to set failpoint: " ++ e.reason ++ "\n"⟩) ∧
    (∀ ps name S t, pairs = ps ++ [(name, S)] → (r.find name).isSome →
      parse S = some t →
      (httpSetMany r pairs).1.find name =
        some ⟨true, some t, S, 0, initRem t, 0⟩) := by
  have herr := setMany_err r pairs
  have hfold : ∀ (qs : List (String × String)) (r' : Registry),
      (setMany r' qs).1 = qs.foldl (fun acc p => (setFp acc p.1 p.2).1) r' := by
    intro qs
    induction qs with
    | nil => intro r'; rfl
    | cons p rest ih =>
      intro r'
      rw [setMany, List.foldl_cons]
      exact ih _
  have hmain : httpSetMany r pairs = ((setMany r pairs).1,
      match (setMany r pairs).2 with
      | none => ⟨204, ""⟩
      | some e => ⟨400, "fail to set failpoint: " ++ e.reason ++ "\n"⟩) := by
    rw [httpSetMany]
    cases (setMany r pairs).2 <;> rfl
  refine ⟨hfold pairs r, herr, firstFailure_none_iff r pairs, ?_, ?_, ?_⟩
  · rw [hmain, herr]
    cases hif : firstFailure r pairs with
    | none => simp
    | some e => simp
  · intro e he
    rw [hmain, herr, he]
  · intro ps name S t hpairs hreg hp
    have hreg1 : (httpSetMany r pairs).1 = (setMany r pairs).1 := by
      rw [hmain]
    rw [hreg1, hpairs]
    exact setMany_snoc_applies r ps name S t hreg hp

/-- C5 witness: the bulk request of the integration test mixing a valid
`ExampleOneLine` pair with an unknown `InvalidFailpoint` pair answers
400 with the does-not-exist reason while the valid pair is applied. -/
theorem setMany_first_error_applies_all_witness :
    firstFailure testRegistry
      [("ExampleOneLine", "return(\"jkl\")"), ("InvalidFailpoint", "return")] =
      some SetResult.notFound ∧
    (httpSetMany testRegistry
      [("ExampleOneLine", "return(\"jkl\")"), ("InvalidFailpoint", "return")]).2 =
      ⟨400, "fail to set failpoint: " ++ SetResult.notFound.reason ++ "\n"⟩ := by
  have h := setMany_first_error_applies_all testRegistry
    [("ExampleOneLine", "return(\"jkl\")"), ("InvalidFailpoint", "return")]
  exact ⟨by decide, h.2.2.2.2.1 SetResult.notFound (by decide)⟩

/-- C1: after a set to `1*return(A)->return(B)`, the first hit yields
`Return(A)`, every later hit yields `Return(B)` forever, and the hit
counter after `n` hits equals `n`. -/
theorem one_star_first_then_terminal (r : Registry) (name spec a b : String)
    (fp0 : Failpoint) (hreg : r.find name = some fp0)
    (hp : parse spec = some ⟨[⟨some 1, Action.ret (some a)⟩,
                             ⟨none, Action.ret (some b)⟩]⟩) :
    (hit (setFp r name spec).1 name).2 =
      HitResult.action (Action.ret (some a)) ∧
    (∀ n, 1 ≤ n →
      (hit (hitN (setFp r name spec).1 name n) name).2 =
        HitResult.action (Action.ret (some b))) ∧
    (∀ n, ((hitN (setFp r name spec).1 name n).find name).map
        Failpoint.hitCount = some n) := by
  have hfind1 : (setFp r name spec).1.find name =
      some ⟨true, some ⟨[⟨some 1, Action.ret (some a)⟩,
        ⟨none, Action.ret (some b)⟩]⟩, spec, 0, 1, 0⟩ := by
    rw [setFp_ok hreg hp]
    exact find_update_self _ hreg
  have hstate : ∀ n, (hitN (setFp r name spec).1 name (n + 1)).find name =
      some ⟨true, some ⟨[⟨some 1, Action.ret (some a)⟩,
        ⟨none, Action.ret (some b)⟩]⟩, spec, 1, 0, n + 1⟩ := by
    intro n
    induction n with
    | zero =>
      show ((hit (setFp r name spec).1 name).1).find name = _
      rw [hit_enabled hfind1 rfl rfl]
      exact find_update_self _ hfind1
    | succ k ih =>
      show ((hit (hitN (setFp r name spec).1 name (k + 1)) name).1).find
        name = _
      rw [hit_enabled ih rfl rfl]
      exact find_update_self _ ih
  refine ⟨?_, ?_, ?_⟩
  · rw [hit_enabled hfind1 rfl rfl]
    rfl
  · intro n hn
    obtain ⟨k, rfl⟩ : ∃ k, n = k + 1 := ⟨n - 1, by omega⟩
    rw [hit_enabled (hstate k) rfl rfl]
    rfl
  · intro n
    cases n with
    | zero =>
      show (((setFp r name spec).1).find name).map Failpoint.hitCount = some 0
      rw [hfind1]
      rfl
    | succ k =>
      rw [hstate k]
      rfl

/-- C1 witness: the integration test's `1*return("a")->return("b")` spec
on `ExampleString`: first hit `a`, fifth hit still `b`, counter 4 after
4 hits. -/
theorem one_star_first_then_terminal_witness :
    (hit (setFp testRegistry "ExampleString"
        "1*return(\"a\")->return(\"b\")").1 "ExampleString").2 =
      HitResult.action (Action.ret (some "\"a\"")) ∧
    (1 ≤ 5 ∧
      (hit (hitN (setFp testRegistry "ExampleString"
          "1*return(\"a\")->return(\"b\")").1 "ExampleString" 5)
        "ExampleString").2 = HitResult.action (Action.ret (some "\"b\""))) ∧
    ((hitN (setFp testRegistry "ExampleString"
        "1*return(\"a\")->return(\"b\")").1 "ExampleString" 4).find
      "ExampleString").map Failpoint.hitCount = some 4 := by
  have h := one_star_first_then_terminal testRegistry "ExampleString"
    "1*return(\"a\")->return(\"b\")" "\"a\"" "\"b\"" Failpoint.initial
    (by decide) (by decide)
  exact ⟨h.1, ⟨by decide, h.2.1 5 (by decide)⟩, h.2.2 4⟩

/-- C10 witness: a bulk set naming only `ExampleOneLine` leaves
`ExampleString` exactly as registered. -/
theorem set_frame_other_failpoints_witness :
    (setFp testRegistry "ExampleOneLine" "return(\"ghi\")").1.find
      "ExampleString" = testRegistry.find "ExampleString" ∧
    ∀ pairs : List (String × String),
      (∀ p ∈ pairs, p.1 ≠ "ExampleString") →
      (setMany testRegistry pairs).1.find "ExampleString" =
        testRegistry.find "ExampleString" :=
  set_frame_other_failpoints testRegistry "ExampleOneLine" "ExampleString"
    "return(\"ghi\")" (by decide)

end Gofail
